import Mathlib

/-!
# Verification of the fractalv escape-time renderer

A shallow embedding of `src/main.rs`.  Rust `f64` values are modelled as
exact rationals `ℚ`; `usize` as `ℕ`; `Vec<u32>` as `List ℕ`.  The cast
`x as u32` of the nonnegative float intensity is modelled as the floor of
the exact real value, computed via `Nat.sqrt` (the identity
`⌊√(e/m)·255⌋ = Nat.sqrt (e·255²/m)` is proved below as a theorem).
Rust panics (out-of-bounds index write, `unwrap` on a parse failure) are
modelled by `Option`/explicit result variants.
-/

/-- The mutable context of `main.rs` (`struct FractalContext`):
viewport `dimensions` in pixels, `pan` offset, zoom `scale`,
the dirty flag `updated`, and the pixel buffer `pixels`. -/
structure FractalContext where
  dimensions : ℕ × ℕ
  pan : ℚ × ℚ
  scale : ℚ
  updated : Bool
  pixels : List ℕ
  deriving Repr, DecidableEq

/-- `FractalContext::new()` : default view `(640, 360)`, pan `(0,0)`,
scale `100`, dirty, buffer of `640*360` zeros. -/
def FractalContext.new : FractalContext :=
  { dimensions := (640, 360), pan := (0, 0), scale := 100,
    updated := true, pixels := List.replicate (640 * 360) 0 }

/-- The fractal variant (`enum Fractal`), each carrying `max_iterations`. -/
inductive Fractal where
  | Mandelbrot (max : ℕ)
  | BurningShip (max : ℕ)
  deriving Repr, DecidableEq

/-- Complex multiplication on pairs (`num_complex::Complex<f64>` product). -/
def cmul (u v : ℚ × ℚ) : ℚ × ℚ :=
  (u.1 * v.1 - u.2 * v.2, u.1 * v.2 + u.2 * v.1)

/-- Complex addition on pairs. -/
def cadd (u v : ℚ × ℚ) : ℚ × ℚ := (u.1 + v.1, u.2 + v.2)

/-- `Complex::norm_sqr` : squared magnitude. -/
def norm_sqr (z : ℚ × ℚ) : ℚ := z.1 * z.1 + z.2 * z.2

/-- The screen-to-plane coordinate mapping both kernels apply to a pixel
index `i`:
`x = (i % w) - w/2`, `y = (i / w) - h/2` (the halving is float division),
`c = (x / scale + pan.0, y / scale + pan.1)`. -/
def pixelCoord (w h : ℕ) (scale : ℚ) (pan : ℚ × ℚ) (i : ℕ) : ℚ × ℚ :=
  ((((i % w : ℕ) : ℚ) - (w : ℚ) / 2) / scale + pan.1,
   (((i / w : ℕ) : ℚ) - (h : ℚ) / 2) / scale + pan.2)

/-- The Mandelbrot inner loop of `Fractal::mandelbrot`: starting from
`z = 0`, `n` rounds of `z = z*z + c`, incrementing `escaped` on every
round whose resulting `norm_sqr` exceeds `4`.  Returns `(z, escaped)`. -/
def mandelbrotLoop (c : ℚ × ℚ) : ℕ → (ℚ × ℚ) × ℕ
  | 0 => ((0, 0), 0)
  | n + 1 =>
    let p := mandelbrotLoop c n
    let z := cadd (cmul p.1 p.1) c
    (z, if 4 < norm_sqr z then p.2 + 1 else p.2)

/-- The Burning-Ship inner loop of `Fractal::burning_ship`: each round
first replaces `z` by `(|Re z|, |Im z|)`, then squares and adds `c`,
with the same escape counting. -/
def burningShipLoop (c : ℚ × ℚ) : ℕ → (ℚ × ℚ) × ℕ
  | 0 => ((0, 0), 0)
  | n + 1 =>
    let p := burningShipLoop c n
    let az : ℚ × ℚ := (|p.1.1|, |p.1.2|)
    let z := cadd (cmul az az) c
    (z, if 4 < norm_sqr z then p.2 + 1 else p.2)

/-- The packed intensity `((escaped as f64 / maxiter as f64).sqrt() * 255.) as u32`,
i.e. `⌊√(escaped/maxiter)·255⌋` in exact arithmetic, computed as
`Nat.sqrt (escaped·255²/maxiter)` (the equality with the floor of the
real-valued expression is proved in `intensity_eq_floor_sqrt`). -/
def intensity (escaped maxiter : ℕ) : ℕ :=
  Nat.sqrt (escaped * 255 ^ 2 / maxiter)

/-- The value stored into the buffer for one pixel:
`intensity * 0x010101` (grayscale packing). -/
def pixelValue (escaped maxiter : ℕ) : ℕ :=
  intensity escaped maxiter * 0x010101

/-- The per-pixel value the Mandelbrot kernel writes at index `i`. -/
def mandelbrotPixel (w h : ℕ) (scale : ℚ) (pan : ℚ × ℚ) (maxiter i : ℕ) : ℕ :=
  pixelValue (mandelbrotLoop (pixelCoord w h scale pan i) maxiter).2 maxiter

/-- The per-pixel value the Burning-Ship kernel writes at index `i`. -/
def burningShipPixel (w h : ℕ) (scale : ℚ) (pan : ℚ × ℚ) (maxiter i : ℕ) : ℕ :=
  pixelValue (burningShipLoop (pixelCoord w h scale pan i) maxiter).2 maxiter

/-- `Fractal::mandelbrot(ctx, maxiter)`: writes `mandelbrotPixel` into
every index `0 .. ctx.pixels.len()` of the (already resized) buffer. -/
def Fractal.mandelbrot (ctx : FractalContext) (maxiter : ℕ) : List ℕ :=
  (List.range ctx.pixels.length).map fun i =>
    mandelbrotPixel ctx.dimensions.1 ctx.dimensions.2 ctx.scale ctx.pan maxiter i

/-- `Fractal::burning_ship(ctx, maxiter)`: same fan-out with the
Burning-Ship kernel. -/
def Fractal.burning_ship (ctx : FractalContext) (maxiter : ℕ) : List ℕ :=
  (List.range ctx.pixels.length).map fun i =>
    burningShipPixel ctx.dimensions.1 ctx.dimensions.2 ctx.scale ctx.pan maxiter i

/-- `Vec::resize(n, v)` : truncate to `n` if shorter requested, else pad
with `v` (the retained prefix keeps its old contents). -/
def listResize (l : List ℕ) (n : ℕ) (v : ℕ) : List ℕ :=
  if n ≤ l.length then l.take n else l ++ List.replicate (n - l.length) v

/-- The crosshair index `(width/2) + (height/2)*width` (integer division). -/
def centerIndex (ctx : FractalContext) : ℕ :=
  ctx.dimensions.1 / 2 + ctx.dimensions.2 / 2 * ctx.dimensions.1

/-- `Fractal::render` : resize the buffer to `w*h`, run the variant's
kernel over all indices, overwrite the center index with `0xFF0000`
(a panic — `none` — if that index is out of bounds, as Rust `Vec`
indexing panics), and clear the dirty flag `updated`. -/
def Fractal.render (f : Fractal) (ctx : FractalContext) : Option FractalContext :=
  let ctx1 : FractalContext :=
    { ctx with pixels := listResize ctx.pixels (ctx.dimensions.1 * ctx.dimensions.2) 0 }
  let px : List ℕ :=
    match f with
    | .Mandelbrot max => Fractal.mandelbrot ctx1 max
    | .BurningShip max => Fractal.burning_ship ctx1 max
  if centerIndex ctx < px.length then
    some { ctx1 with pixels := px.set (centerIndex ctx) 0xFF0000, updated := false }
  else
    none

/-- The per-pixel value `Fractal::render`'s kernel computes at index `i`:
a function of the index and the immutable view/spec values only. -/
def Fractal.pixelAt (f : Fractal) (ctx : FractalContext) (i : ℕ) : ℕ :=
  match f with
  | .Mandelbrot max =>
      mandelbrotPixel ctx.dimensions.1 ctx.dimensions.2 ctx.scale ctx.pan max i
  | .BurningShip max =>
      burningShipPixel ctx.dimensions.1 ctx.dimensions.2 ctx.scale ctx.pan max i

/-- Result of `main`'s argument handling: the usage message and clean
return, a panic (`parse::<usize>().unwrap()` on a bad string), or a
chosen fractal handed to the render loop. -/
inductive ConfigResult where
  | usage
  | panicked
  | run (f : Fractal)
  deriving Repr, DecidableEq

/-- `args[2].parse::<usize>()` modelled as decimal `ℕ` parsing: the
string must be nonempty and all digits, and the value is the usual
base-10 accumulation. -/
def parseUsize (s : String) : Option ℕ :=
  if s.data ≠ [] ∧ s.data.all (fun c => c.isDigit) then
    some (s.data.foldl (fun n c => n * 10 + (c.toNat - 48)) 0)
  else none

/-- The argument dispatch of `main` (`match args.len()`): 1 argument
prints usage; 2 pick the variant with default 30 iterations; 3 first
`unwrap` the parsed iteration count (panicking on failure) and then pick
the variant; anything else prints usage. -/
def chooseFractal (args : List String) : ConfigResult :=
  match args with
  | [_] => .usage
  | [_, name] =>
    if name = "mandelbrot" then .run (.Mandelbrot 30)
    else if name = "burning-ship" then .run (.BurningShip 30)
    else .usage
  | [_, name, it] =>
    match parseUsize it with
    | none => .panicked
    | some n =>
      if name = "mandelbrot" then .run (.Mandelbrot n)
      else if name = "burning-ship" then .run (.BurningShip n)
      else .usage
  | _ => .usage

/-- `ctx.scale *= 1.1` (key `I`). -/
def zoom_in (scale : ℚ) : ℚ := scale * 1.1

/-- `ctx.scale /= 1.1` (key `O`). -/
def zoom_out (scale : ℚ) : ℚ := scale / 1.1

/-- The `z`-trajectory of the Mandelbrot recurrence on its own:
`z₀ = 0`, `z_{k+1} = z_k² + c`. -/
def mandelbrotZ (c : ℚ × ℚ) : ℕ → ℚ × ℚ
  | 0 => (0, 0)
  | n + 1 => cadd (cmul (mandelbrotZ c n) (mandelbrotZ c n)) c

/-- The `z`-trajectory of the Burning-Ship recurrence on its own. -/
def burningShipZ (c : ℚ × ℚ) : ℕ → ℚ × ℚ
  | 0 => (0, 0)
  | n + 1 =>
    let z := burningShipZ c n
    let az : ℚ × ℚ := (|z.1|, |z.2|)
    cadd (cmul az az) c

/-! ## Lemmas about the iteration loops -/

lemma mandelbrotLoop_fst (c : ℚ × ℚ) (n : ℕ) :
    (mandelbrotLoop c n).1 = mandelbrotZ c n := by
  induction n with
  | zero => rfl
  | succ n ih => simp [mandelbrotLoop, mandelbrotZ, ih]

lemma burningShipLoop_fst (c : ℚ × ℚ) (n : ℕ) :
    (burningShipLoop c n).1 = burningShipZ c n := by
  induction n with
  | zero => rfl
  | succ n ih => simp [burningShipLoop, burningShipZ, ih]

lemma mandelbrotLoop_snd (c : ℚ × ℚ) (n : ℕ) :
    (mandelbrotLoop c n).2 =
      ((List.range n).filter fun k => 4 < norm_sqr (mandelbrotZ c (k + 1))).length := by
  induction n with
  | zero => rfl
  | succ n ih =>
    have hz : cadd (cmul (mandelbrotLoop c n).1 (mandelbrotLoop c n).1) c
        = mandelbrotZ c (n + 1) := by
      rw [mandelbrotLoop_fst]; rfl
    simp only [mandelbrotLoop, hz, List.range_succ, List.filter_append,
      List.length_append, ih]
    by_cases h : 4 < norm_sqr (mandelbrotZ c (n + 1)) <;>
      simp [h]

lemma burningShipLoop_snd (c : ℚ × ℚ) (n : ℕ) :
    (burningShipLoop c n).2 =
      ((List.range n).filter fun k => 4 < norm_sqr (burningShipZ c (k + 1))).length := by
  induction n with
  | zero => rfl
  | succ n ih =>
    have hz : cadd (cmul (|(burningShipLoop c n).1.1|, |(burningShipLoop c n).1.2|)
          (|(burningShipLoop c n).1.1|, |(burningShipLoop c n).1.2|)) c
        = burningShipZ c (n + 1) := by
      rw [burningShipLoop_fst]; rfl
    simp only [burningShipLoop, hz, List.range_succ, List.filter_append,
      List.length_append, ih]
    by_cases h : 4 < norm_sqr (burningShipZ c (n + 1)) <;>
      simp [h]

lemma mandelbrotLoop_snd_le (c : ℚ × ℚ) (n : ℕ) : (mandelbrotLoop c n).2 ≤ n := by
  induction n with
  | zero => simp [mandelbrotLoop]
  | succ n ih =>
    simp only [mandelbrotLoop]
    by_cases h : 4 < norm_sqr (cadd (cmul (mandelbrotLoop c n).1 (mandelbrotLoop c n).1) c) <;>
      simp [h] <;> omega

lemma burningShipLoop_snd_le (c : ℚ × ℚ) (n : ℕ) : (burningShipLoop c n).2 ≤ n := by
  induction n with
  | zero => simp [burningShipLoop]
  | succ n ih =>
    simp only [burningShipLoop]
    by_cases h : 4 < norm_sqr (cadd (cmul (|(burningShipLoop c n).1.1|, |(burningShipLoop c n).1.2|)
        (|(burningShipLoop c n).1.1|, |(burningShipLoop c n).1.2|)) c) <;>
      simp [h] <;> omega

/-! ## The intensity mapping -/

lemma nat_floor_sqrt_eq (x : ℝ) (hx : 0 ≤ x) :
    ⌊Real.sqrt x⌋₊ = Nat.sqrt ⌊x⌋₊ := by
  rw [Nat.floor_eq_iff (Real.sqrt_nonneg x)]
  constructor
  · calc ((Nat.sqrt ⌊x⌋₊ : ℕ) : ℝ) ≤ Real.sqrt (⌊x⌋₊ : ℝ) := Real.nat_sqrt_le_real_sqrt
      _ ≤ Real.sqrt x := Real.sqrt_le_sqrt (Nat.floor_le hx)
  · by_contra hc
    push_neg at hc
    have hnn : (0:ℝ) ≤ (Nat.sqrt ⌊x⌋₊ : ℝ) + 1 := by positivity
    have hsq : ((Nat.sqrt ⌊x⌋₊ : ℝ) + 1) ^ 2 ≤ Real.sqrt x ^ 2 :=
      pow_le_pow_left₀ hnn hc 2
    rw [Real.sq_sqrt hx] at hsq
    have hle : ((Nat.sqrt ⌊x⌋₊ + 1) ^ 2 : ℕ) ≤ ⌊x⌋₊ := by
      rw [Nat.le_floor_iff hx]
      push_cast
      exact hsq
    have hlt := Nat.lt_succ_sqrt ⌊x⌋₊
    have hs : (Nat.sqrt ⌊x⌋₊).succ * (Nat.sqrt ⌊x⌋₊).succ = (Nat.sqrt ⌊x⌋₊ + 1) ^ 2 := by
      rw [Nat.succ_eq_add_one]; ring
    omega

lemma intensity_eq_floor_sqrt (e m : ℕ) :
    intensity e m = ⌊Real.sqrt ((e : ℝ) / m) * 255⌋₊ := by
  have hx : (0:ℝ) ≤ (e : ℝ) / m := by positivity
  have h255 : (255 : ℝ) = Real.sqrt 65025 := by
    rw [show (65025:ℝ) = 255 ^ 2 by norm_num, Real.sqrt_sq (by norm_num : (0:ℝ) ≤ 255)]
  rw [h255, ← Real.sqrt_mul hx]
  have harg : (e : ℝ) / m * 65025 = ((e * 255 ^ 2 : ℕ) : ℝ) / m := by
    push_cast; ring
  rw [harg, nat_floor_sqrt_eq _ (by positivity), Nat.floor_div_nat, Nat.floor_natCast]
  rfl

lemma intensity_le_255 (e m : ℕ) (h : e ≤ m) : intensity e m ≤ 255 := by
  unfold intensity
  rcases Nat.eq_zero_or_pos m with hm | hm
  · subst hm
    interval_cases e
    simp
  · have h1 : e * 255 ^ 2 / m ≤ 65025 := by
      calc e * 255 ^ 2 / m ≤ m * 255 ^ 2 / m :=
            Nat.div_le_div_right (Nat.mul_le_mul_right _ h)
        _ = 255 ^ 2 := Nat.mul_div_cancel_left _ hm
        _ = 65025 := by norm_num
    calc Nat.sqrt (e * 255 ^ 2 / m) ≤ Nat.sqrt 65025 := Nat.sqrt_le_sqrt h1
      _ = 255 := by norm_num


/-! ## Lemmas about `Fractal.render` -/

lemma listResize_length (l : List ℕ) (n v : ℕ) : (listResize l n v).length = n := by
  unfold listResize
  split
  · rename_i h
    simp [Nat.min_eq_left h]
  · rename_i h
    simp
    omega

lemma render_eq (f : Fractal) (ctx : FractalContext) :
    f.render ctx =
      if centerIndex ctx < ctx.dimensions.1 * ctx.dimensions.2 then
        some { ctx with
          pixels := ((List.range (ctx.dimensions.1 * ctx.dimensions.2)).map
              (fun i => f.pixelAt ctx i)).set (centerIndex ctx) 0xFF0000,
          updated := false }
      else none := by
  cases f <;>
    simp [Fractal.render, Fractal.mandelbrot, Fractal.burning_ship, Fractal.pixelAt,
      listResize_length]

lemma centerIndex_lt (ctx : FractalContext) (hw : 1 ≤ ctx.dimensions.1)
    (hh : 1 ≤ ctx.dimensions.2) :
    centerIndex ctx < ctx.dimensions.1 * ctx.dimensions.2 := by
  unfold centerIndex
  have h1 : ctx.dimensions.1 / 2 < ctx.dimensions.1 := Nat.div_lt_self (by omega) (by omega)
  have h2 : ctx.dimensions.2 / 2 + 1 ≤ ctx.dimensions.2 := by omega
  calc ctx.dimensions.1 / 2 + ctx.dimensions.2 / 2 * ctx.dimensions.1
      < ctx.dimensions.1 + ctx.dimensions.2 / 2 * ctx.dimensions.1 := by omega
    _ = (ctx.dimensions.2 / 2 + 1) * ctx.dimensions.1 := by ring
    _ ≤ ctx.dimensions.2 * ctx.dimensions.1 := Nat.mul_le_mul_right _ h2
    _ = ctx.dimensions.1 * ctx.dimensions.2 := Nat.mul_comm _ _

lemma render_some (f : Fractal) (ctx : FractalContext)
    (h : centerIndex ctx < ctx.dimensions.1 * ctx.dimensions.2) :
    f.render ctx =
      some { ctx with
        pixels := ((List.range (ctx.dimensions.1 * ctx.dimensions.2)).map
            (fun i => f.pixelAt ctx i)).set (centerIndex ctx) 0xFF0000,
        updated := false } := by
  rw [render_eq, if_pos h]

lemma render_none (f : Fractal) (ctx : FractalContext)
    (h : ctx.dimensions.1 * ctx.dimensions.2 = 0) :
    f.render ctx = none := by
  rw [render_eq, if_neg (by omega)]

lemma render_length (f : Fractal) (ctx ctx' : FractalContext)
    (h : f.render ctx = some ctx') :
    ctx'.pixels.length = ctx.dimensions.1 * ctx.dimensions.2 := by
  rw [render_eq] at h
  split at h
  · injection h with h
    subst h
    simp
  · simp at h

lemma render_fields (f : Fractal) (ctx ctx' : FractalContext)
    (h : f.render ctx = some ctx') :
    ctx'.dimensions = ctx.dimensions ∧ ctx'.pan = ctx.pan ∧ ctx'.scale = ctx.scale ∧
      ctx'.updated = false := by
  rw [render_eq] at h
  split at h
  · injection h with h
    subst h
    simp
  · simp at h

lemma render_get (f : Fractal) (ctx ctx' : FractalContext)
    (h : f.render ctx = some ctx') (i : ℕ)
    (hi : i < ctx.dimensions.1 * ctx.dimensions.2) :
    ctx'.pixels[i]? = some (if i = centerIndex ctx then 0xFF0000 else f.pixelAt ctx i) := by
  rw [render_eq] at h
  split at h
  · rename_i hc
    injection h with h
    subst h
    by_cases hic : i = centerIndex ctx
    · subst hic
      simp only [if_pos rfl]
      apply List.getElem?_set_self
      simpa using hi
    · simp only [FractalContext.pixels]
      rw [List.getElem?_set_ne (Ne.symm hic), List.getElem?_map, List.getElem?_range hi,
        if_neg hic]
      rfl
  · simp at h

lemma render_pixels_irrel (f : Fractal) (d : ℕ × ℕ) (pn : ℚ × ℚ) (s : ℚ) (u : Bool)
    (p q : List ℕ) :
    f.render ⟨d, pn, s, u, p⟩ = f.render ⟨d, pn, s, u, q⟩ := by
  cases f <;>
    rw [render_eq, render_eq] <;>
      simp [Fractal.pixelAt, centerIndex]


/-! ## Boundedness of the Mandelbrot orbit near the origin -/

lemma mandelbrotLoop_bounded (c : ℚ × ℚ) (hc1 : |c.1| ≤ 1/100) (hc2 : |c.2| ≤ 1/100)
    (n : ℕ) :
    |(mandelbrotLoop c n).1.1| ≤ 1/50 ∧ |(mandelbrotLoop c n).1.2| ≤ 1/50 ∧
      (mandelbrotLoop c n).2 = 0 := by
  obtain ⟨hc1l, hc1r⟩ := abs_le.mp hc1
  obtain ⟨hc2l, hc2r⟩ := abs_le.mp hc2
  induction n with
  | zero =>
    refine ⟨?_, ?_, rfl⟩ <;> norm_num [mandelbrotLoop]
  | succ n ih =>
    obtain ⟨ha, hb, he⟩ := ih
    obtain ⟨hal, har⟩ := abs_le.mp ha
    obtain ⟨hbl, hbr⟩ := abs_le.mp hb
    have hre : |(mandelbrotLoop c n).1.1 * (mandelbrotLoop c n).1.1 -
        (mandelbrotLoop c n).1.2 * (mandelbrotLoop c n).1.2 + c.1| ≤ 1/50 := by
      rw [abs_le]
      constructor <;> nlinarith
    have him : |(mandelbrotLoop c n).1.1 * (mandelbrotLoop c n).1.2 +
        (mandelbrotLoop c n).1.2 * (mandelbrotLoop c n).1.1 + c.2| ≤ 1/50 := by
      rw [abs_le]
      constructor <;> nlinarith
    have hns : ¬ (4 < norm_sqr (cadd (cmul (mandelbrotLoop c n).1 (mandelbrotLoop c n).1) c)) := by
      simp only [norm_sqr, cadd, cmul]
      obtain ⟨h1l, h1r⟩ := abs_le.mp hre
      obtain ⟨h2l, h2r⟩ := abs_le.mp him
      push_neg
      nlinarith
    refine ⟨?_, ?_, ?_⟩
    · simp only [mandelbrotLoop, if_neg hns]
      simpa [cadd, cmul] using hre
    · simp only [mandelbrotLoop, if_neg hns]
      simpa [cadd, cmul] using him
    · simp only [mandelbrotLoop, if_neg hns, he]


/-! ## Claim theorems -/

/-- Claim C1: both kernels run the iteration loop exactly `max_iterations`
times with no early exit: the loop's `z` after `m` rounds is the full
`m`-step trajectory value, and `escaped` counts every round `k+1 ≤ m`
whose `norm_sqr` exceeds 4 (not just the first escape); in particular
`escaped` can reach `max_iterations`, as at `c = 3` with 2 iterations. -/
theorem C1_fixed_iteration_no_early_exit :
    (∀ (c : ℚ × ℚ) (m : ℕ),
        (mandelbrotLoop c m).1 = mandelbrotZ c m ∧
        (mandelbrotLoop c m).2 =
          ((List.range m).filter fun k => 4 < norm_sqr (mandelbrotZ c (k + 1))).length ∧
        (burningShipLoop c m).1 = burningShipZ c m ∧
        (burningShipLoop c m).2 =
          ((List.range m).filter fun k => 4 < norm_sqr (burningShipZ c (k + 1))).length) ∧
    (mandelbrotLoop (3, 0) 2).2 = 2 ∧ (burningShipLoop (3, 0) 2).2 = 2 := by
  refine ⟨fun c m => ⟨mandelbrotLoop_fst c m, mandelbrotLoop_snd c m,
    burningShipLoop_fst c m, burningShipLoop_snd c m⟩, ?_, ?_⟩ <;>
    norm_num [mandelbrotLoop, burningShipLoop, cmul, cadd, norm_sqr]

/-- Claim C2: for `max_iterations ≥ 1`, the escaped count of either kernel
lies in `[0, max_iterations]`; for any such count the stored intensity is
`⌊√(escaped/max_iterations)·255⌋`, lies in `[0, 255]`, and the packed
pixel value is `intensity * 0x010101`. -/
theorem C2_escaped_bounds_and_intensity (c : ℚ × ℚ) (m : ℕ) (hm : 1 ≤ m) :
    (mandelbrotLoop c m).2 ≤ m ∧ (burningShipLoop c m).2 ≤ m ∧
    ∀ e : ℕ, e ≤ m →
      intensity e m = ⌊Real.sqrt ((e : ℝ) / m) * 255⌋₊ ∧
      intensity e m ≤ 255 ∧
      pixelValue e m = intensity e m * 0x010101 :=
  ⟨mandelbrotLoop_snd_le c m, burningShipLoop_snd_le c m,
    fun e he => ⟨intensity_eq_floor_sqrt e m, intensity_le_255 e m he, rfl⟩⟩

/-- Witness for C2 at `c = 3`, `max_iterations = 30`. -/
theorem C2_escaped_bounds_and_intensity_witness :
    1 ≤ 30 ∧
    ((mandelbrotLoop (3, 0) 30).2 ≤ 30 ∧ (burningShipLoop (3, 0) 30).2 ≤ 30 ∧
     ∀ e : ℕ, e ≤ 30 →
       intensity e 30 = ⌊Real.sqrt ((e : ℝ) / 30) * 255⌋₊ ∧
       intensity e 30 ≤ 255 ∧
       pixelValue e 30 = intensity e 30 * 0x010101) :=
  ⟨by norm_num, C2_escaped_bounds_and_intensity (3, 0) 30 (by norm_num)⟩

/-- Claim C4 evidence: the iteration-count argument `"0"` parses
successfully and `main` hands the engine `Mandelbrot` with
`max_iterations = 0` — no configuration-time rejection occurs. -/
theorem C4_zero_iterations_reaches_engine :
    parseUsize "0" = some 0 ∧
    chooseFractal ["fractalv", "mandelbrot", "0"] = ConfigResult.run (Fractal.Mandelbrot 0) := by
  constructor <;> decide

/-- Claim C9: `zoom_in` multiplies `scale` by exactly 1.1 and `zoom_out`
divides by 1.1; from any positive start, iterated `zoom_in` strictly
increases, iterated `zoom_out` strictly decreases, and the scale stays
strictly positive (never 0). -/
theorem C9_zoom_monotone (s : ℚ) (hs : 0 < s) :
    (∀ t : ℚ, zoom_in t = t * (11 / 10) ∧ zoom_out t = t / (11 / 10)) ∧
    ∀ n : ℕ, 0 < zoom_in^[n] s ∧ 0 < zoom_out^[n] s ∧
      zoom_in^[n] s < zoom_in^[n + 1] s ∧ zoom_out^[n + 1] s < zoom_out^[n] s := by
  have hin : ∀ t : ℚ, 0 < t → t < zoom_in t := by
    intro t ht
    unfold zoom_in
    nlinarith
  have hout : ∀ t : ℚ, 0 < t → zoom_out t < t := by
    intro t ht
    unfold zoom_out
    rw [div_lt_iff₀ (by norm_num)]
    nlinarith
  have hinpos : ∀ n : ℕ, 0 < zoom_in^[n] s := by
    intro n
    induction n with
    | zero => simpa using hs
    | succ n ih =>
      rw [Function.iterate_succ_apply']
      exact lt_trans ih (hin _ ih)
  have houtpos : ∀ n : ℕ, 0 < zoom_out^[n] s := by
    intro n
    induction n with
    | zero => simpa using hs
    | succ n ih =>
      rw [Function.iterate_succ_apply']
      unfold zoom_out
      exact div_pos ih (by norm_num)
  refine ⟨fun t => ⟨by norm_num [zoom_in], by norm_num [zoom_out]⟩,
    fun n => ⟨hinpos n, houtpos n, ?_, ?_⟩⟩
  · rw [Function.iterate_succ_apply']
    exact hin _ (hinpos n)
  · rw [Function.iterate_succ_apply']
    exact hout _ (houtpos n)

/-- Witness for C9 at the startup scale 100. -/
theorem C9_zoom_monotone_witness :
    (0 : ℚ) < 100 ∧
    ((∀ t : ℚ, zoom_in t = t * (11 / 10) ∧ zoom_out t = t / (11 / 10)) ∧
     ∀ n : ℕ, 0 < zoom_in^[n] (100 : ℚ) ∧ 0 < zoom_out^[n] (100 : ℚ) ∧
       zoom_in^[n] (100 : ℚ) < zoom_in^[n + 1] (100 : ℚ) ∧
       zoom_out^[n + 1] (100 : ℚ) < zoom_out^[n] (100 : ℚ)) :=
  ⟨by norm_num, C9_zoom_monotone 100 (by norm_num)⟩

/-- Claim C10: for a viewport with `width ≥ 1` and `height ≥ 1` the
crosshair index is strictly below `width*height`, so the post-kernel
write is in bounds and `render` succeeds; for a zero-area viewport the
write is out of bounds and `render` panics (returns `none`). -/
theorem C10_center_write_in_bounds (f : Fractal) (ctx : FractalContext) :
    (1 ≤ ctx.dimensions.1 → 1 ≤ ctx.dimensions.2 →
      centerIndex ctx < ctx.dimensions.1 * ctx.dimensions.2 ∧
        ∃ ctx', f.render ctx = some ctx') ∧
    (ctx.dimensions.1 * ctx.dimensions.2 = 0 → f.render ctx = none) := by
  constructor
  · intro hw hh
    have hc := centerIndex_lt ctx hw hh
    exact ⟨hc, _, render_some f ctx hc⟩
  · intro h
    exact render_none f ctx h

/-- Witness for C10: a `3×2` viewport renders with the crosshair in
bounds; a `0×5` viewport makes `render` panic. -/
theorem C10_center_write_in_bounds_witness :
    (centerIndex ⟨(3, 2), (0, 0), 1, true, []⟩ < 3 * 2 ∧
      ∃ ctx', (Fractal.Mandelbrot 1).render ⟨(3, 2), (0, 0), 1, true, []⟩ = some ctx') ∧
    (Fractal.BurningShip 1).render ⟨(0, 5), (0, 0), 1, true, [9]⟩ = none :=
  ⟨(C10_center_write_in_bounds (Fractal.Mandelbrot 1) ⟨(3, 2), (0, 0), 1, true, []⟩).1
      (by norm_num) (by norm_num),
   (C10_center_write_in_bounds (Fractal.BurningShip 1) ⟨(0, 5), (0, 0), 1, true, [9]⟩).2
      (by norm_num)⟩

lemma render_1x1 (p : List ℕ) :
    (Fractal.Mandelbrot 1).render ⟨(1, 1), (0, 0), 1, true, p⟩ =
      some ⟨(1, 1), (0, 0), 1, false, [0xFF0000]⟩ := by
  norm_num [Fractal.render, Fractal.mandelbrot, listResize_length, centerIndex,
    mandelbrotPixel, pixelValue, intensity, pixelCoord, mandelbrotLoop, cmul, cadd, norm_sqr,
    List.range_succ]

/-- Claim C3 counterexample: on a dirty `1×1` context, `render` itself
sets the dirty flag `updated` to `false` — the engine, not the caller,
clears it, falsifying the stated no-mutation contract. -/
theorem C3_render_mutates_dirty_flag :
    (FractalContext.mk (1, 1) (0, 0) 1 true [7]).updated = true ∧
    ((Fractal.Mandelbrot 1).render (FractalContext.mk (1, 1) (0, 0) 1 true [7])).map
        FractalContext.updated = some false := by
  refine ⟨rfl, ?_⟩
  rw [render_1x1]
  rfl

/-- Claim C3 amended: `render` leaves `dimensions`, `pan` and `scale`
unchanged, but it clears the dirty flag itself, setting `updated` to
`false` on every successful render. -/
theorem C3_render_preserves_view_clears_dirty (f : Fractal) (ctx ctx' : FractalContext)
    (h : f.render ctx = some ctx') :
    ctx'.dimensions = ctx.dimensions ∧ ctx'.pan = ctx.pan ∧ ctx'.scale = ctx.scale ∧
      ctx'.updated = false :=
  render_fields f ctx ctx' h

/-- Witness for the amended C3 on a concrete `1×1` render. -/
theorem C3_render_preserves_view_clears_dirty_witness :
    (Fractal.Mandelbrot 1).render ⟨(1, 1), (0, 0), 1, true, [7]⟩ =
      some ⟨(1, 1), (0, 0), 1, false, [0xFF0000]⟩ ∧
    ((⟨(1, 1), (0, 0), 1, false, [0xFF0000]⟩ : FractalContext).dimensions = (1, 1) ∧
     (⟨(1, 1), (0, 0), 1, false, [0xFF0000]⟩ : FractalContext).pan = (0, 0) ∧
     (⟨(1, 1), (0, 0), 1, false, [0xFF0000]⟩ : FractalContext).scale = 1 ∧
     (⟨(1, 1), (0, 0), 1, false, [0xFF0000]⟩ : FractalContext).updated = false) :=
  ⟨render_1x1 [7], C3_render_preserves_view_clears_dirty _ _ _ (render_1x1 [7])⟩

/-- Claim C5: for any viewport with `width ≥ 1` and `height ≥ 1`,
`render` succeeds and the pixel at the crosshair index
`(w/2)+(h/2)*w` equals `0xFF0000` exactly. -/
theorem C5_center_pixel_red (f : Fractal) (ctx : FractalContext)
    (hw : 1 ≤ ctx.dimensions.1) (hh : 1 ≤ ctx.dimensions.2) :
    ∃ ctx', f.render ctx = some ctx' ∧ ctx'.pixels[centerIndex ctx]? = some 0xFF0000 := by
  have hc := centerIndex_lt ctx hw hh
  refine ⟨_, render_some f ctx hc, ?_⟩
  have h := render_get f ctx _ (render_some f ctx hc) (centerIndex ctx) hc
  simpa using h

/-- Witness for C5 on a concrete `1×1` Burning-Ship render. -/
theorem C5_center_pixel_red_witness :
    1 ≤ (⟨(1, 1), (0, 0), 1, true, [] ⟩ : FractalContext).dimensions.1 ∧
    1 ≤ (⟨(1, 1), (0, 0), 1, true, [] ⟩ : FractalContext).dimensions.2 ∧
    ∃ ctx', (Fractal.BurningShip 2).render ⟨(1, 1), (0, 0), 1, true, []⟩ = some ctx' ∧
      ctx'.pixels[centerIndex ⟨(1, 1), (0, 0), 1, true, []⟩]? = some 0xFF0000 :=
  ⟨by norm_num, by norm_num,
   C5_center_pixel_red (Fractal.BurningShip 2) _ (by norm_num) (by norm_num)⟩

/-- Claim C6: rendering is deterministic — identical `(spec, view)`
inputs give identical results — and each pixel of a successful render is
a function of its own index and the shared view/spec values only:
`pixelAt` away from the crosshair, `0xFF0000` at it. -/
theorem C6_deterministic_per_pixel (f : Fractal) (ctx : FractalContext) :
    f.render ctx = f.render ctx ∧
    ∀ ctx', f.render ctx = some ctx' →
      ∀ i, i < ctx.dimensions.1 * ctx.dimensions.2 →
        ctx'.pixels[i]? = some (if i = centerIndex ctx then 0xFF0000 else f.pixelAt ctx i) :=
  ⟨rfl, fun ctx' h i hi => render_get f ctx ctx' h i hi⟩

/-- Witness for C6 on a concrete `1×1` render at index 0. -/
theorem C6_deterministic_per_pixel_witness :
    ((Fractal.Mandelbrot 1).render ⟨(1, 1), (0, 0), 1, true, []⟩ =
      some ⟨(1, 1), (0, 0), 1, false, [0xFF0000]⟩) ∧
    (0 : ℕ) < 1 * 1 ∧
    (⟨(1, 1), (0, 0), 1, false, [0xFF0000]⟩ : FractalContext).pixels[(0 : ℕ)]? =
      some (if 0 = centerIndex ⟨(1, 1), (0, 0), 1, true, []⟩ then 0xFF0000
        else (Fractal.Mandelbrot 1).pixelAt ⟨(1, 1), (0, 0), 1, true, []⟩ 0) :=
  ⟨render_1x1 [], by norm_num,
   (C6_deterministic_per_pixel (Fractal.Mandelbrot 1) _).2 _ (render_1x1 []) 0 (by norm_num)⟩

/-- Claim C8: the render pass resizes the buffer to exactly
`width*height` and its result does not depend on the old buffer
contents — two renders from arbitrary old buffers agree, and the
resulting length is `width*height`. -/
theorem C8_resize_discards (f : Fractal) (d : ℕ × ℕ) (pn : ℚ × ℚ) (s : ℚ) (u : Bool)
    (p q : List ℕ) :
    f.render ⟨d, pn, s, u, p⟩ = f.render ⟨d, pn, s, u, q⟩ ∧
    ∀ ctx', f.render ⟨d, pn, s, u, p⟩ = some ctx' → ctx'.pixels.length = d.1 * d.2 :=
  ⟨render_pixels_irrel f d pn s u p q,
   fun ctx' h => render_length f _ ctx' h⟩

/-- Witness for C8: a `1×1` render from the old buffer `[1,2,3]` equals
the render from an empty old buffer, and has length `1*1`. -/
theorem C8_resize_discards_witness :
    ((Fractal.Mandelbrot 1).render ⟨(1, 1), (0, 0), 1, true, [1, 2, 3]⟩ =
      (Fractal.Mandelbrot 1).render ⟨(1, 1), (0, 0), 1, true, []⟩) ∧
    ((Fractal.Mandelbrot 1).render ⟨(1, 1), (0, 0), 1, true, [1, 2, 3]⟩ =
      some ⟨(1, 1), (0, 0), 1, false, [0xFF0000]⟩) ∧
    (⟨(1, 1), (0, 0), 1, false, [0xFF0000]⟩ : FractalContext).pixels.length = 1 * 1 :=
  ⟨(C8_resize_discards (Fractal.Mandelbrot 1) (1, 1) (0, 0) 1 true [1, 2, 3] []).1,
   render_1x1 [1, 2, 3],
   (C8_resize_discards (Fractal.Mandelbrot 1) (1, 1) (0, 0) 1 true [1, 2, 3] []).2 _
     (render_1x1 [1, 2, 3])⟩

/-- Claim C7: in the Mandelbrot view with `max_iterations = 30`,
dimensions `(640, 360)`, pan `(0, 0)`, scale `100`, pixel index
`i = 319 + 179·640 = 114879` maps to `c = (-0.01, -0.01)`; its escaped
count is 0, its packed pixel value is 0, the index is not the crosshair
index, and the rendered buffer holds 0 there. -/
theorem C7_example_pixel_value :
    pixelCoord 640 360 100 (0, 0) 114879 = (-1/100, -1/100) ∧
    (mandelbrotLoop (-1/100, -1/100) 30).2 = 0 ∧
    pixelValue (mandelbrotLoop (-1/100, -1/100) 30).2 30 = 0 ∧
    (114879 : ℕ) ≠ centerIndex ⟨(640, 360), (0, 0), 100, true, []⟩ ∧
    ∃ ctx', (Fractal.Mandelbrot 30).render ⟨(640, 360), (0, 0), 100, true, []⟩ = some ctx' ∧
      ctx'.pixels[(114879 : ℕ)]? = some 0 := by
  have hcoord : pixelCoord 640 360 100 (0, 0) 114879 = (-1/100, -1/100) := by
    norm_num [pixelCoord]
  have hesc : (mandelbrotLoop (-1/100, -1/100) 30).2 = 0 :=
    (mandelbrotLoop_bounded (-1/100, -1/100) (abs_le.mpr (by norm_num))
      (abs_le.mpr (by norm_num)) 30).2.2
  have hpx : pixelValue (mandelbrotLoop (-1/100, -1/100) 30).2 30 = 0 := by
    rw [hesc]
    norm_num [pixelValue, intensity]
  have hcen : (114879 : ℕ) ≠ centerIndex ⟨(640, 360), (0, 0), 100, true, []⟩ := by
    norm_num [centerIndex]
  have hlt : centerIndex (⟨(640, 360), (0, 0), 100, true, []⟩ : FractalContext) <
      (⟨(640, 360), (0, 0), 100, true, []⟩ : FractalContext).dimensions.1 *
      (⟨(640, 360), (0, 0), 100, true, []⟩ : FractalContext).dimensions.2 := by
    norm_num [centerIndex]
  refine ⟨hcoord, hesc, hpx, hcen, _, render_some _ _ hlt, ?_⟩
  have hget := render_get _ _ _ (render_some (Fractal.Mandelbrot 30)
    (⟨(640, 360), (0, 0), 100, true, []⟩ : FractalContext) hlt) 114879 (by norm_num)
  rw [hget, if_neg hcen]
  simp only [Fractal.pixelAt, mandelbrotPixel]
  rw [hcoord, hpx]
